import Mathlib

/-!
Shallow embedding of the instructional Python notebooks in this repository
(iterators and generators, decorators, design patterns, asynchronous demo),
together with theorems settling the stated claims about them.

Python integers are modelled as `Int` (they are unbounded), Python lists as
`List`, dictionaries as association lists, exceptions as `Option`/`Except`,
and generators as explicit state passing.  The deterministic cooperative
asyncio demo is modelled as an event loop over wake-time keys.
-/

namespace CodeCollabHub

/-! ## Iterators_and_Generators: `Countdown` (claim C1) -/

/-- State of the `Countdown` iterator class: the single attribute
`self.current`, set to `start` by `__init__`. -/
structure Countdown where
  current : Int
  deriving DecidableEq, Repr

/-- `Countdown.__next__`: if `self.current > 0` it decrements `self.current`
and returns `self.current + 1` (the pre-decrement value); otherwise it
raises `StopIteration`, modelled as `none`. -/
def Countdown.next (c : Countdown) : Option (Int × Countdown) :=
  if c.current > 0 then
    let cur := c.current - 1
    some (cur + 1, ⟨cur⟩)
  else
    none

/-- The `for` loop over an iterator: call `__next__` up to `fuel` times,
collecting the yielded values, stopping early at `StopIteration`.
Returns the collected values and the final iterator state. -/
def countdownIter : Nat → Countdown → List Int × Countdown
  | 0, c => ([], c)
  | fuel + 1, c =>
    match Countdown.next c with
    | some (v, c') =>
      let r := countdownIter fuel c'
      (v :: r.1, r.2)
    | none => ([], c)

/-- `countdown_generator(start)`: `current = start; while current > 0:
yield current; current -= 1`.  The generator is finite, so it is embedded
directly as the list of yielded values. -/
def countdown_generator (start : Int) : List Int :=
  if h : start > 0 then start :: countdown_generator (start - 1) else []
termination_by start.toNat
decreasing_by
  omega

/-- The descending sequence `start, start-1, ..., 1` written independently
of the iterator code. -/
def descFrom (n : Nat) : List Int :=
  (List.range n).map (fun i : Nat => (n : Int) - (i : Int))

theorem descFrom_zero : descFrom 0 = [] := rfl

theorem descFrom_succ (n : Nat) :
    descFrom (n + 1) = ((n : Int) + 1) :: descFrom n := by
  simp only [descFrom, List.range_succ_eq_map, List.map_cons, List.map_map]
  refine List.cons_eq_cons.mpr ⟨by push_cast; ring, ?_⟩
  apply List.map_congr_left
  intro i _
  simp only [Function.comp_apply]
  push_cast
  ring

theorem countdownIter_spec (n : Nat) :
    ∀ fuel, n ≤ fuel → countdownIter fuel ⟨(n : Int)⟩ = (descFrom n, ⟨0⟩) := by
  induction n with
  | zero =>
    intro fuel _
    cases fuel with
    | zero => rfl
    | succ k =>
      simp [countdownIter, Countdown.next, descFrom]
  | succ m ih =>
    intro fuel hf
    cases fuel with
    | zero => omega
    | succ k =>
      have hnext : Countdown.next ⟨((m : Int) + 1)⟩ =
          some (((m : Int) + 1), ⟨(m : Int)⟩) := by
        simp [Countdown.next]
      have hcast : ((m + 1 : Nat) : Int) = (m : Int) + 1 := by push_cast; ring
      rw [show (⟨((m + 1 : Nat) : Int)⟩ : Countdown) = ⟨(m : Int) + 1⟩ by
        rw [hcast]]
      simp only [countdownIter, hnext]
      rw [ih k (by omega)]
      rw [descFrom_succ]

theorem countdown_generator_spec (n : Nat) :
    countdown_generator (n : Int) = descFrom n := by
  induction n with
  | zero =>
    unfold countdown_generator
    simp [descFrom]
  | succ m ih =>
    unfold countdown_generator
    have hpos : ((m + 1 : Nat) : Int) > 0 := by positivity
    rw [dif_pos hpos]
    have hcast : ((m + 1 : Nat) : Int) - 1 = (m : Int) := by push_cast; ring
    rw [hcast, ih, descFrom_succ]
    push_cast
    ring_nf

/-- C1: for every integer start >= 1, iterating `Countdown(start)` yields
exactly `start, start-1, ..., 1` in that order and leaves the counter at 0;
`__next__` raises `StopIteration` exactly when the counter has reached 0
(for the nonnegative counters reachable from such a start); and
`countdown_generator(start)` produces the same sequence. -/
theorem countdown_correct (start : Int) (h : 1 ≤ start) :
    (countdownIter start.toNat ⟨start⟩).1 = descFrom start.toNat ∧
    (countdownIter start.toNat ⟨start⟩).2 = ⟨0⟩ ∧
    (∀ c : Countdown, 0 ≤ c.current →
      (Countdown.next c = none ↔ c.current = 0)) ∧
    countdown_generator start = (countdownIter start.toNat ⟨start⟩).1 := by
  have hcast : ((start.toNat : Nat) : Int) = start := Int.toNat_of_nonneg (by omega)
  have hiter := countdownIter_spec start.toNat start.toNat (le_refl _)
  rw [hcast] at hiter
  refine ⟨by rw [hiter], by rw [hiter], ?_, ?_⟩
  · intro c hc
    constructor
    · intro hnone
      by_contra hne
      have hpos : c.current > 0 := by omega
      simp [Countdown.next, hpos] at hnone
    · intro h0
      simp [Countdown.next, h0]
  · have hgen := countdown_generator_spec start.toNat
    rw [hcast] at hgen
    rw [hgen, hiter]

/-- Concrete check of C1 at the notebook input `start = 5`:
the loop prints `5, 4, 3, 2, 1`. -/
theorem countdown_correct_witness :
    (1 : Int) ≤ 5 ∧
    ((countdownIter (5 : Int).toNat ⟨5⟩).1 = descFrom (5 : Int).toNat ∧
      (countdownIter (5 : Int).toNat ⟨5⟩).2 = ⟨0⟩ ∧
      (∀ c : Countdown, 0 ≤ c.current →
        (Countdown.next c = none ↔ c.current = 0)) ∧
      countdown_generator 5 = (countdownIter (5 : Int).toNat ⟨5⟩).1) :=
  ⟨by norm_num, countdown_correct 5 (by norm_num)⟩

/-! ## Iterators_and_Generators: `fibonacci_generator` (claim C5) -/

/-- One resumption step of `fibonacci_generator`: the state is the pair
`(a, b)`; each step yields `a` and updates `a, b = b, a + b`.  Taking `k`
values from the infinite generator gives this list. -/
def fibGenTake : Nat → Int × Int → List Int
  | 0, _ => []
  | k + 1, s => s.1 :: fibGenTake k (s.2, s.1 + s.2)

/-- `fibonacci_generator()` starts from `a, b = 0, 1`; the first `k`
values of the generator. -/
def fibonacci_generator (k : Nat) : List Int :=
  fibGenTake k (0, 1)

/-- The Fibonacci sequence as defined in the claim:
`F 0 = 0`, `F 1 = 1`, `F (n+2) = F (n+1) + F n`. -/
def fibSpec : Nat → Int
  | 0 => 0
  | 1 => 1
  | n + 2 => fibSpec (n + 1) + fibSpec n

theorem fibGenTake_spec (k : Nat) :
    ∀ n, fibGenTake k (fibSpec n, fibSpec (n + 1)) =
      (List.range k).map (fun i => fibSpec (n + i)) := by
  induction k with
  | zero => intro n; rfl
  | succ m ih =>
    intro n
    rw [List.range_succ_eq_map]
    simp only [fibGenTake, List.map_cons, List.map_map, Nat.add_zero]
    congr 1
    have hstep : (fibSpec (n + 1), fibSpec n + fibSpec (n + 1)) =
        (fibSpec (n + 1), fibSpec (n + 1 + 1)) := by
      rw [show fibSpec (n + 1 + 1) = fibSpec (n + 1) + fibSpec n from rfl]
      rw [add_comm (fibSpec (n + 1))]
    rw [hstep, ih (n + 1)]
    apply List.map_congr_left
    intro i _
    simp only [Function.comp_apply]
    rw [show n + 1 + i = n + (i + 1) by omega]

/-- C5: for every k, the first k values of `fibonacci_generator()` are the
length-k prefix of the Fibonacci sequence with `F 0 = 0`, `F 1 = 1`,
`F (n+2) = F (n+1) + F n`; in particular the first 10 values are
`0, 1, 1, 2, 3, 5, 8, 13, 21, 34`. -/
theorem fibonacci_generator_correct (k : Nat) :
    fibonacci_generator k = (List.range k).map fibSpec ∧
    fibonacci_generator 10 = [0, 1, 1, 2, 3, 5, 8, 13, 21, 34] := by
  constructor
  · have h := fibGenTake_spec k 0
    simp only [fibonacci_generator]
    rw [show ((0 : Int), (1 : Int)) = (fibSpec 0, fibSpec 1) from rfl]
    rw [h]
    simp
  · rfl

/-- Concrete check of C5 at the notebook length 10. -/
theorem fibonacci_generator_correct_witness :
    fibonacci_generator 10 = (List.range 10).map fibSpec :=
  (fibonacci_generator_correct 10).1

/-! ## Decorators_Python: `memoize` and the memoized `fibonacci` (claim C2) -/

/-- Lookup in a Python dictionary modelled as an association list
(later entries shadow earlier ones; the memoize cache never overwrites a
key, so entries are unique anyway). -/
def lookupCache {α β : Type} [DecidableEq α] : List (α × β) → α → Option β
  | [], _ => none
  | (k, v) :: rest, a => if k = a then some v else lookupCache rest a

/-- One call of the wrapper returned by `memoize(func)`: `if args in
cache: return cache[args] else: result = func(*args); cache[args] =
result; return result`.  The mutable closure variable `cache` is threaded
explicitly: the call returns the value and the updated cache. -/
def memoizeCall {α β : Type} [DecidableEq α] (func : α → β)
    (cache : List (α × β)) (args : α) : β × List (α × β) :=
  match lookupCache cache args with
  | some v => (v, cache)
  | none => (func args, (args, func args) :: cache)

/-- A cache is consistent with `func` when every stored entry is the value
`func` returns on that key. -/
def cacheConsistent {α β : Type} (func : α → β) (cache : List (α × β)) : Prop :=
  ∀ p ∈ cache, p.2 = func p.1

theorem lookupCache_mem {α β : Type} [DecidableEq α]
    (cache : List (α × β)) (a : α) (v : β)
    (h : lookupCache cache a = some v) : (a, v) ∈ cache := by
  induction cache with
  | nil => simp [lookupCache] at h
  | cons p rest ih =>
    rw [show p = (p.1, p.2) from rfl] at h ⊢
    simp only [lookupCache] at h
    by_cases hk : p.1 = a
    · rw [if_pos hk] at h
      have hv : p.2 = v := Option.some.inj h
      rw [List.mem_cons]
      left
      rw [← hk, ← hv]
    · rw [if_neg hk] at h
      rw [List.mem_cons]
      right
      exact ih h

/-- `fibonacci` as decorated by `@memoize`: the body is `if n < 2: return
n; return fibonacci(n-1) + fibonacci(n-2)`, where each recursive call goes
through the memoizing wrapper, so the cache is threaded left to right
through the two recursive calls and the result is stored before
returning. -/
def memoFib : Nat → List (Nat × Nat) → Nat × List (Nat × Nat)
  | 0, cache =>
    match lookupCache cache 0 with
    | some v => (v, cache)
    | none => (0, (0, 0) :: cache)
  | 1, cache =>
    match lookupCache cache 1 with
    | some v => (v, cache)
    | none => (1, (1, 1) :: cache)
  | n + 2, cache =>
    match lookupCache cache (n + 2) with
    | some v => (v, cache)
    | none =>
      let p := memoFib (n + 1) cache
      let q := memoFib n p.2
      (p.1 + q.1, (n + 2, p.1 + q.1) :: q.2)

/-- The Fibonacci function written plainly, without a cache. -/
def fibPlain : Nat → Nat
  | 0 => 0
  | 1 => 1
  | n + 2 => fibPlain (n + 1) + fibPlain n

theorem memoFib_spec (n : Nat) :
    ∀ cache, cacheConsistent fibPlain cache →
      (memoFib n cache).1 = fibPlain n ∧
      cacheConsistent fibPlain (memoFib n cache).2 := by
  induction n using Nat.strong_induction_on with
  | _ n ih =>
    intro cache hc
    match n with
    | 0 =>
      simp only [memoFib]
      cases hl : lookupCache cache 0 with
      | some v =>
        have hv := hc _ (lookupCache_mem cache 0 v hl)
        exact ⟨hv, hc⟩
      | none =>
        refine ⟨rfl, ?_⟩
        intro p hp
        cases hp with
        | head => rfl
        | tail _ h => exact hc _ h
    | 1 =>
      simp only [memoFib]
      cases hl : lookupCache cache 1 with
      | some v =>
        have hv := hc _ (lookupCache_mem cache 1 v hl)
        exact ⟨hv, hc⟩
      | none =>
        refine ⟨rfl, ?_⟩
        intro p hp
        cases hp with
        | head => rfl
        | tail _ h => exact hc _ h
    | m + 2 =>
      simp only [memoFib]
      cases hl : lookupCache cache (m + 2) with
      | some v =>
        have hv := hc _ (lookupCache_mem cache (m + 2) v hl)
        exact ⟨hv, hc⟩
      | none =>
        have h1 := ih (m + 1) (by omega) cache hc
        have h2 := ih m (by omega) (memoFib (m + 1) cache).2 h1.2
        refine ⟨by rw [h1.1, h2.1]; rfl, ?_⟩
        intro p hp
        cases hp with
        | head => simp only [fibPlain]; rw [h1.1, h2.1]
        | tail _ h => exact h2.2 _ h

/-- C2: for every function whose result depends only on its arguments,
one call of the `memoize` wrapper returns exactly what the function would
return and keeps the cache consistent (so by induction every sequence of
calls agrees with the bare function, cache hit or miss); in particular the
memoized `fibonacci` applied to 10 returns 55. -/
theorem memoize_extensional {α β : Type} [DecidableEq α] (func : α → β)
    (cache : List (α × β)) (args : α) (h : cacheConsistent func cache) :
    (memoizeCall func cache args).1 = func args ∧
    cacheConsistent func (memoizeCall func cache args).2 ∧
    (memoFib 10 []).1 = 55 := by
  refine ⟨?_, ?_, by decide⟩
  · simp only [memoizeCall]
    cases hl : lookupCache cache args with
    | some v => exact h _ (lookupCache_mem cache args v hl)
    | none => rfl
  · simp only [memoizeCall]
    cases hl : lookupCache cache args with
    | some v => exact h
    | none =>
      intro p hp
      cases hp with
      | head => rfl
      | tail _ hmem => exact h _ hmem

/-- Concrete check of C2: the wrapper applied to a doubling function on an
empty cache, and the memoized fibonacci at the notebook input 10. -/
theorem memoize_extensional_witness :
    (memoizeCall (fun n : Nat => n * 2) [] 3).1 = (fun n : Nat => n * 2) 3 ∧
    cacheConsistent (fun n : Nat => n * 2)
      (memoizeCall (fun n : Nat => n * 2) [] 3).2 ∧
    (memoFib 10 []).1 = 55 :=
  memoize_extensional (fun n : Nat => n * 2) [] 3
    (fun p hp => absurd hp (List.not_mem_nil p))

/-! ## Design Patterns: `SingletonMeta` and `Logger` (claim C4) -/

/-- The state of `SingletonMeta`: the class attribute `_instances`, a
dictionary from classes to their single created instance, plus a counter
used to mint fresh, distinct instance identities.  Classes are named by
strings and instances identified by numbers. -/
structure MetaState where
  instances : List (String × Nat)
  nextId : Nat
  deriving DecidableEq, Repr

/-- `SingletonMeta.__call__(cls, ...)`: if `cls` is not in `_instances`, a
new instance is created and stored under `cls`; the stored instance is
returned.  Returns the instance identity and the updated state. -/
def SingletonMeta.call (cls : String) (s : MetaState) : Nat × MetaState :=
  match lookupCache s.instances cls with
  | some inst => (inst, s)
  | none => (s.nextId, ⟨(cls, s.nextId) :: s.instances, s.nextId + 1⟩)

theorem lookupCache_none_not_mem {α β : Type} [DecidableEq α]
    (cache : List (α × β)) (a : α)
    (h : lookupCache cache a = none) : a ∉ cache.map Prod.fst := by
  induction cache with
  | nil => simp
  | cons p rest ih =>
    rw [show p = (p.1, p.2) from rfl] at h
    simp only [lookupCache] at h
    by_cases hk : p.1 = a
    · rw [if_pos hk] at h
      exact absurd h (by simp)
    · rw [if_neg hk] at h
      simp only [List.map_cons, List.mem_cons]
      intro hor
      cases hor with
      | inl heq => exact hk heq.symm
      | inr hmem => exact ih h hmem

/-- C4: any two instantiations `Logger()` return one and the same
instance — the second call returns exactly the instance the first call
returned and does not change the state — and every call preserves the
invariant that `_instances` holds at most one instance per class (its
keys stay pairwise distinct). -/
theorem singleton_unique (cls : String) (s : MetaState)
    (h : (s.instances.map Prod.fst).Nodup) :
    (SingletonMeta.call cls (SingletonMeta.call cls s).2).1 =
      (SingletonMeta.call cls s).1 ∧
    (SingletonMeta.call cls (SingletonMeta.call cls s).2).2 =
      (SingletonMeta.call cls s).2 ∧
    ((SingletonMeta.call cls s).2.instances.map Prod.fst).Nodup := by
  cases hl : lookupCache s.instances cls with
  | some inst =>
    simp [SingletonMeta.call, hl, h]
  | none =>
    have hl2 : lookupCache ((cls, s.nextId) :: s.instances) cls =
        some s.nextId := by
      simp [lookupCache]
    simp only [SingletonMeta.call, hl, hl2]
    refine ⟨trivial, trivial, ?_⟩
    simp only [List.map_cons, List.nodup_cons]
    exact ⟨lookupCache_none_not_mem s.instances cls hl, h⟩

/-- Concrete check of C4 from the empty `_instances` dictionary: creating
`logger1 = Logger()` and `logger2 = Logger()` yields the same instance. -/
theorem singleton_unique_witness :
    (((⟨[], 0⟩ : MetaState).instances.map Prod.fst).Nodup) ∧
    (SingletonMeta.call "Logger"
        (SingletonMeta.call "Logger" ⟨[], 0⟩).2).1 =
      (SingletonMeta.call "Logger" (⟨[], 0⟩ : MetaState)).1 :=
  ⟨by simp, (singleton_unique "Logger" ⟨[], 0⟩ (by simp)).1⟩

/-! ## Asynchronous_Programming: the three-task event-loop demo (claim C3)

Each demo task prints a start message, awaits `asyncio.sleep(delay)` and
prints an end message.  The single-threaded cooperative event loop is
modelled deterministically: `gather` starts the coroutines in argument
order (each runs to its first `await`, printing its start message), the
sleeps register timers keyed by wake-up time, and the loop resumes tasks
in wake-time order (first in, first out among equal wake times).  Real
time is abstracted into the delay keys. -/

/-- A demo task: its printed name and its hardcoded sleep delay. -/
structure DemoTask where
  name : String
  delay : Nat
  deriving DecidableEq, Repr

/-- `task1`, `task2`, `task3` with their hardcoded delays of 2, 3 and 1
seconds, in the order they are passed to `asyncio.gather`. -/
def demoTasks : List DemoTask :=
  [⟨"Task 1", 2⟩, ⟨"Task 2", 3⟩, ⟨"Task 3", 1⟩]

/-- Insert a timer into the wake queue: it goes after every timer with an
earlier or equal wake time (stable order). -/
def insertTimer (p : Nat × String) : List (Nat × String) → List (Nat × String)
  | [] => [p]
  | q :: rest => if q.1 ≤ p.1 then q :: insertTimer p rest else p :: q :: rest

/-- The wake queue after every task has started and registered its
sleep timer, in gather order. -/
def timerQueue (ts : List DemoTask) : List (Nat × String) :=
  ts.foldl (fun acc t => insertTimer (t.delay, t.name) acc) []

/-- `await asyncio.gather(...)`: the start messages in argument order,
then the end messages as the loop resumes each task at its wake time. -/
def gatherRun (ts : List DemoTask) : List String :=
  ts.map (fun t => t.name ++ " started..") ++
    (timerQueue ts).map (fun p => p.2 ++ " Ended")

/-- `run_tasks()`: gather the three tasks, then print the join-all
message. -/
def run_tasks (ts : List DemoTask) : List String :=
  gatherRun ts ++ ["All tasks completed."]

/-- C3: in the three-task demo the tasks finish in order of their
hardcoded delays — task3 (1 s) first, then task1 (2 s), then task2
(3 s) — and the join-all message is printed only after all three tasks
have ended (it is the last line of the run). -/
theorem run_tasks_order :
    run_tasks demoTasks =
      ["Task 1 started..", "Task 2 started..", "Task 3 started..",
        "Task 3 Ended", "Task 1 Ended", "Task 2 Ended",
        "All tasks completed."] ∧
    (run_tasks demoTasks).getLast? = some "All tasks completed." := by
  constructor
  · rfl
  · rfl

/-! ## Iterators_and_Generators: the `accumulator` coroutine (claim C6) -/

/-- One resumption of `accumulator` by `send(value)` (or `next`, which
sends `None`): execution continues at `value = yield total`, runs
`if value is not None: total += value`, loops, and suspends again at
`yield total`, so the caller receives the updated total.  Returns the
yielded value and the new `total`. -/
def accumulator_resume (total : Int) (value : Option Int) : Int × Int :=
  match value with
  | some x => (total + x, total + x)
  | none => (total, total)

/-- Priming `acc = accumulator(); next(acc)`: `total = 0` and the first
`yield total` yields 0, leaving the state at 0. -/
def accumulator_start : Int × Int := (0, 0)

/-- A sequence of `send` calls from a given state, collecting the value
each `send` returns. -/
def accumulator_sendAll : Int → List Int → List Int
  | _, [] => []
  | t, v :: rest =>
    (accumulator_resume t (some v)).1 ::
      accumulator_sendAll (accumulator_resume t (some v)).2 rest

/-- C6 fails on the code: after priming, `acc.send(10)` returns 10, not
the 0 claimed by the usage comments — `send` returns the total after the
sent value is added, and the full run returns 10, 30, 60 (the recorded
cell output), not 0, 10, 30. -/
theorem accumulator_claim_false :
    accumulator_sendAll accumulator_start.2 [10, 20, 30] ≠ [0, 10, 30] ∧
    (accumulator_resume accumulator_start.2 (some 10)).1 ≠ 0 := by
  constructor
  · decide
  · decide

/-- C6 amended: priming yields 0, and the three sends return 10, 30 and
60 — each `send` returns the total after the sent value has been added,
matching the recorded cell output. -/
theorem accumulator_amended :
    accumulator_start.1 = 0 ∧
    accumulator_sendAll accumulator_start.2 [10, 20, 30] = [10, 30, 60] := by
  constructor
  · rfl
  · decide

/-! ## Decorators_Python: `validate_input` and `multiply` (claim C7) -/

/-- Python values as far as this snippet distinguishes them: integers,
strings and `None`. -/
inductive PyVal where
  | intV (n : Int)
  | strV (s : String)
  | noneV
  deriving DecidableEq, Repr

/-- Python `isinstance(v, int)` on the modelled values. -/
def PyVal.isInt : PyVal → Bool
  | .intV _ => true
  | _ => false

/-- Python `x * y` restricted to the integer case (the only case the
guarded call can reach). -/
def pyMul (x y : PyVal) : Option PyVal :=
  match x, y with
  | .intV a, .intV b => some (.intV (a * b))
  | _, _ => none

/-- `multiply` as decorated by `@validate_input`: the wrapper raises
`ValueError("Both x and y need to be integers")` unless both arguments
are `int` instances, and otherwise returns `func(x, y) = x * y`. -/
def multiply (x y : PyVal) : Except String PyVal :=
  if !(x.isInt && y.isInt) then
    Except.error "Both x and y need to be integers"
  else
    match pyMul x y with
    | some v => Except.ok v
    | none => Except.error "unreachable"

/-- C7: the decorated `multiply` raises the `ValueError` exactly when at
least one argument is not an `int`, and on two integers returns their
product. -/
theorem multiply_validates (x y : PyVal) :
    (multiply x y = Except.error "Both x and y need to be integers" ↔
      ¬(x.isInt = true ∧ y.isInt = true)) ∧
    (∀ a b : Int, multiply (.intV a) (.intV b) = Except.ok (.intV (a * b))) := by
  constructor
  · cases x <;> cases y <;> simp [multiply, PyVal.isInt, pyMul]
  · intro a b
    rfl

/-- Concrete check of C7 at the notebook input `multiply(2, "3")`, which
raises the `ValueError`. -/
theorem multiply_validates_witness :
    multiply (.intV 2) (.strV "3") =
      Except.error "Both x and y need to be integers" :=
  (multiply_validates (.intV 2) (.strV "3")).1.mpr (by decide)

/-! ## Design Patterns: `Subject` and its observers (claim C8) -/

/-- The `Subject` of the observer pattern: its single attribute, the list
`self._observers`.  Observers are identified by numbers. -/
structure Subject where
  observers : List Nat
  deriving DecidableEq, Repr

/-- `Subject.attach(observer)`: `self._observers.append(observer)`. -/
def Subject.attach (s : Subject) (o : Nat) : Subject :=
  ⟨s.observers ++ [o]⟩

/-- `Subject.detach(observer)`: `self._observers.remove(observer)`
(removes the first occurrence). -/
def Subject.detach (s : Subject) (o : Nat) : Subject :=
  ⟨s.observers.erase o⟩

/-- The `for observer in self._observers: observer.update(message)` loop:
the trace of `update` calls it makes, in list order. -/
def notifyLoop (message : String) : List Nat → List (Nat × String)
  | [] => []
  | o :: rest => (o, message) :: notifyLoop message rest

/-- `Subject.notify(message)`: runs the loop over the observer list; the
list itself is not modified, so the subject is returned unchanged. -/
def Subject.notify (s : Subject) (message : String) :
    List (Nat × String) × Subject :=
  (notifyLoop message s.observers, s)

theorem notifyLoop_eq_map (message : String) (l : List Nat) :
    notifyLoop message l = l.map (fun o => (o, message)) := by
  induction l with
  | nil => rfl
  | cons o rest ih =>
    simp only [notifyLoop, List.map_cons]
    rw [ih]

/-- C8: `notify(message)` calls `update(message)` exactly once on each
entry of the observer list, in list (attachment) order — the trace is the
list mapped to update calls — and leaves the observer list unchanged. -/
theorem subject_notify_correct (s : Subject) (message : String) :
    (s.notify message).1 = s.observers.map (fun o => (o, message)) ∧
    (s.notify message).1.length = s.observers.length ∧
    (s.notify message).2 = s := by
  refine ⟨notifyLoop_eq_map message s.observers, ?_, rfl⟩
  simp only [Subject.notify, notifyLoop_eq_map]
  exact List.length_map s.observers _

/-- Concrete check of C8 with two attached observers, as in the notebook
usage: both receive the message once, in attachment order, and the
observer list is unchanged. -/
theorem subject_notify_correct_witness :
    (Subject.notify ⟨[1, 2]⟩ "Hello, Observers!").1 =
      [(1, "Hello, Observers!"), (2, "Hello, Observers!")] ∧
    (Subject.notify ⟨[1, 2]⟩ "Hello, Observers!").2 = ⟨[1, 2]⟩ :=
  ⟨((subject_notify_correct ⟨[1, 2]⟩ "Hello, Observers!").1).trans (by decide),
    (subject_notify_correct ⟨[1, 2]⟩ "Hello, Observers!").2.2⟩

/-! ## Decorators_Python: keyword arguments and the wrapper signatures
(claim C9)

The wrappers returned by `memoize` and `cache_results` are declared as
`def wrapper(*args)`: Python binds any positional arguments into `args`
and raises `TypeError` for any keyword argument, whatever the underlying
function would accept.  A call site is modelled as positional arguments
plus keyword arguments; the underlying function is modelled as accepting
both, so it would accept the keyword the wrapper rejects. -/

/-- A call to the `memoize` wrapper with positional and keyword
arguments: the `*args`-only signature raises `TypeError` on any keyword
argument, otherwise the cached call runs (the wrapper body passes
`*args` and no keywords to `func`). -/
def memoize_wrapper (func : List PyVal → List (String × PyVal) → PyVal)
    (cache : List (List PyVal × PyVal)) (args : List PyVal)
    (kwargs : List (String × PyVal)) :
    Except String (PyVal × List (List PyVal × PyVal)) :=
  if kwargs.isEmpty then
    Except.ok (memoizeCall (fun a => func a []) cache args)
  else
    Except.error "TypeError"

/-- A call to the `cache_results` wrapper: same `*args`-only signature;
on a hit it also prints `Returning cached result`, returned here as an
optional message. -/
def cache_results_wrapper (func : List PyVal → List (String × PyVal) → PyVal)
    (cache : List (List PyVal × PyVal)) (args : List PyVal)
    (kwargs : List (String × PyVal)) :
    Except String (Option String × PyVal × List (List PyVal × PyVal)) :=
  if kwargs.isEmpty then
    match lookupCache cache args with
    | some v => Except.ok (some "Returning cached result", v, cache)
    | none => Except.ok (none, func args [], (args, func args []) :: cache)
  else
    Except.error "TypeError"

/-- C9: for every wrapped function (even one that accepts keyword
arguments, as the modelled `func` does), a call of the `memoize` or
`cache_results` wrapper that passes any keyword argument raises
`TypeError`. -/
theorem wrappers_positional_only
    (func : List PyVal → List (String × PyVal) → PyVal)
    (cache : List (List PyVal × PyVal)) (args : List PyVal)
    (kwargs : List (String × PyVal)) (h : kwargs ≠ []) :
    memoize_wrapper func cache args kwargs = Except.error "TypeError" ∧
    cache_results_wrapper func cache args kwargs =
      Except.error "TypeError" := by
  have he : kwargs.isEmpty = false := by
    cases kwargs with
    | nil => exact absurd rfl h
    | cons p rest => rfl
  constructor
  · simp [memoize_wrapper, he]
  · simp [cache_results_wrapper, he]

/-- Concrete check of C9: calling the memoized fibonacci-style wrapper as
`fibonacci(n=10)` raises `TypeError`. -/
theorem wrappers_positional_only_witness :
    ([(("n" : String), PyVal.intV 10)] ≠ ([] : List (String × PyVal))) ∧
    memoize_wrapper (fun _ _ => PyVal.noneV) [] []
      [("n", PyVal.intV 10)] = Except.error "TypeError" :=
  ⟨by simp,
    (wrappers_positional_only (fun _ _ => PyVal.noneV) [] []
      [("n", PyVal.intV 10)] (by simp)).1⟩

/-! ## Decorators_Python: `repeat(num_times)` (claim C10)

The wrapper body is `for _ in range(num_times): result = func(*args,
**kwargs)` followed by `return result`.  The wrapped function may have
effects, so it is modelled as a state transformer `σ → σ × β` applied to
the same arguments each iteration; the local variable `result` starts
unbound (`none`), and returning it unbound raises `UnboundLocalError`. -/

/-- The `for` loop of the `repeat` wrapper: run `func` once per
iteration, threading the state and overwriting `result`. -/
def repeatLoop {σ β : Type} (func : σ → σ × β) :
    Nat → σ → Option β → σ × Option β
  | 0, s, r => (s, r)
  | k + 1, s, _ => repeatLoop func k (func s).1 (some (func s).2)

/-- The wrapper returned by `repeat(num_times)` applied to `func`: run
the loop starting with `result` unbound, then `return result`. -/
def repeat_wrapper {σ β : Type} (num_times : Nat) (func : σ → σ × β)
    (s : σ) : σ × Except String β :=
  match repeatLoop func num_times s none with
  | (s', some b) => (s', Except.ok b)
  | (s', none) => (s', Except.error "UnboundLocalError")

/-- `n` successive applications of the wrapped function, tracking only
the state: the reference meaning of calling `func` exactly `n` times. -/
def iterState {σ β : Type} (func : σ → σ × β) : Nat → σ → σ
  | 0, s => s
  | k + 1, s => iterState func k (func s).1

theorem repeatLoop_spec {σ β : Type} (func : σ → σ × β) (k : Nat) :
    ∀ (s : σ) (r : Option β),
      repeatLoop func k s r =
        (iterState func k s,
          match k with
          | 0 => r
          | j + 1 => some (func (iterState func j s)).2) := by
  induction k with
  | zero => intro s r; rfl
  | succ j ih =>
    intro s r
    simp only [repeatLoop, iterState]
    rw [ih]
    cases j with
    | zero => rfl
    | succ i => rfl

/-- C10: with `num_times = 0` the wrapper raises `UnboundLocalError`
(`result` is never assigned); with `num_times = n >= 1` it calls the
wrapped function exactly `n` times — the final state is `n` successive
applications — and returns the result of the last, `n`-th call. -/
theorem repeat_wrapper_spec {σ β : Type} (func : σ → σ × β) (s : σ)
    (n : Nat) (h : 1 ≤ n) :
    (repeat_wrapper 0 func s).2 = Except.error "UnboundLocalError" ∧
    (repeat_wrapper n func s).1 = iterState func n s ∧
    (repeat_wrapper n func s).2 =
      Except.ok (func (iterState func (n - 1) s)).2 := by
  refine ⟨rfl, ?_, ?_⟩
  · cases n with
    | zero => omega
    | succ j =>
      simp only [repeat_wrapper, repeatLoop_spec func (j + 1) s none]
  · cases n with
    | zero => omega
    | succ j =>
      simp only [repeat_wrapper, repeatLoop_spec func (j + 1) s none]
      rw [show j + 1 - 1 = j by omega]

/-- Concrete check of C10: a counting function called by the wrapper with
`num_times = 3` runs exactly three times, and the returned value is the
result of the third call. -/
theorem repeat_wrapper_spec_witness :
    (1 ≤ 3) ∧
    (repeat_wrapper 3 (fun t : Nat => (t + 1, t * 10)) 0).1 =
      iterState (fun t : Nat => (t + 1, t * 10)) 3 0 ∧
    (repeat_wrapper 3 (fun t : Nat => (t + 1, t * 10)) 0).2 =
      Except.ok ((fun t : Nat => (t + 1, t * 10))
        (iterState (fun t : Nat => (t + 1, t * 10)) 2 0)).2 :=
  ⟨by norm_num,
    (repeat_wrapper_spec (fun t : Nat => (t + 1, t * 10)) 0 3 (by norm_num)).2.1,
    (repeat_wrapper_spec (fun t : Nat => (t + 1, t * 10)) 0 3 (by norm_num)).2.2⟩

end CodeCollabHub
